import Mathlib

/-!
# Verification of the youtube-playlist aggregation / synchronization core

Shallow embedding of the core logic of the repository:
* `config.py` — `DateConfig.get_date_range` (time-window resolver),
* `video_search.py` — `VideoSearcher.search_channel_videos`,
  `VideoSearcher.search_multiple_channels`,
* `playlist_manager.py` — `PlaylistManager.find_existing_playlist`,
  `create_playlist`, `get_or_create_playlist`, `get_playlist_video_ids`,
  `add_videos_to_playlist`, `generate_playlist_title`,
  `generate_playlist_description`,
* `main.py` — the tail of `main` after playlist resolution.

Remote API calls are modelled as explicit oracle arguments: each oracle value
records one possible sequence of remote responses (`none` standing for an
`HttpError` that the source catches).  Python strings are modelled as `String`
(or `List Char` where character counting matters: Python `len`/slicing act on
code points, exactly as `List Char`), Python sets of ids as `List String`
with membership, and timestamps as integer microseconds since the epoch
(CPython `datetime` has microsecond resolution).
-/

namespace YTP

/-! ## Time-window resolver (`config.py`, `DateConfig.get_date_range`) -/

/-- Microseconds per hour (`timedelta(hours=h)` at microsecond resolution). -/
def usPerHour : Int := 3600000000

/-- Microseconds per day. -/
def usPerDay : Int := 86400000000

/-- Midnight of day `d` (`datetime.combine(target_date, datetime.min.time())`),
with days numbered from the epoch and instants in microseconds. -/
def dayStart (d : Int) : Int := d * usPerDay

/-- End of day `d` (`datetime.combine(target_date, datetime.max.time())`,
i.e. 23:59:59.999999, one microsecond before next midnight). -/
def dayEnd (d : Int) : Int := d * usPerDay + (usPerDay - 1)

/-- `DateConfig.get_date_range` from `config.py`.  `today` is the current day
(`date.today()`), `now` the current instant (`datetime.now(timezone.utc)`),
`target` the configured target day, `hours_back` the optional hour count.
The Python guard `if self.hours_back:` is a truthiness test: it takes the
hours branch only when `hours_back` is present *and nonzero*. -/
def get_date_range (today now target : Int) (hours_back : Option Int) : Int × Int :=
  let endTime := if target ≠ today then dayEnd target else now
  let startTime :=
    match hours_back with
    | some h => if h ≠ 0 then endTime - h * usPerHour else dayStart target
    | none => dayStart target
  (startTime, endTime)

/-! ## Data model (`video_search.py`) -/

/-- One raw item of a video-search API response
(`item['id']['videoId']`, `item['snippet'][...]`).  The description is kept
as a character list because the source slices it by character count. -/
structure RawItem where
  videoId : String
  title : String
  publishedAt : String
  channelTitle : String
  description : List Char
  deriving DecidableEq

/-- The `video_data` dict built in `search_channel_videos`, plus the
`source_channel` key that `search_multiple_channels` adds afterwards
(`""` until tagged). -/
structure VideoRecord where
  video_id : String
  title : String
  published_at : String
  channel_title : String
  description : List Char
  source_channel : String
  deriving DecidableEq

/-- The description cap from `search_channel_videos`:
`description[:100] + '...' if len(description) > 100 else description`. -/
def truncateDescription (d : List Char) : List Char :=
  if 100 < d.length then d.take 100 ++ ('.' :: '.' :: '.' :: []) else d

/-- Build the `video_data` dict for one response item
(`search_channel_videos`, loop body). -/
def mkVideoData (it : RawItem) : VideoRecord :=
  { video_id := it.videoId
    title := it.title
    published_at := it.publishedAt
    channel_title := it.channelTitle
    description := truncateDescription it.description
    source_channel := "" }

/-! ## Per-channel paged search (`search_channel_videos`) -/

/-- The paging loop of `search_channel_videos`.  `pages n` is the response the
server returns to the `n`-th request of this run: its raw items and whether a
`nextPageToken` is present (`response.get('nextPageToken')` truthy).  `fuel`
bounds the number of loop iterations; the Python `while` has no such bound and
can in principle loop forever, so every theorem below speaks about the
iterations actually performed.  Alongside the accumulated videos the model
returns the trace of `maxResults=min(50, max_results - len(videos))` values
sent with each request. -/
def searchPages (pages : Nat → List RawItem × Bool) (maxr : Nat) :
    Nat → Nat → List VideoRecord → List VideoRecord × List Nat
  | 0, _, acc => (acc, [])
  | fuel + 1, n, acc =>
    if acc.length < maxr then
      let page := pages n
      let acc2 := acc ++ page.1.map mkVideoData
      if page.2 then
        let r := searchPages pages maxr fuel (n + 1) acc2
        (r.1, min 50 (maxr - acc.length) :: r.2)
      else
        (acc2, [min 50 (maxr - acc.length)])
    else (acc, [])

/-- `search_channel_videos` (happy path; the surrounding `except HttpError`
branch returns `[]` and is modelled where used). -/
def search_channel_videos (pages : Nat → List RawItem × Bool) (maxr fuel : Nat) :
    List VideoRecord × List Nat :=
  searchPages pages maxr fuel 0 []

/-- Number of raw items on page `n`. -/
def pageCount (pages : Nat → List RawItem × Bool) (n : Nat) : Nat :=
  ((pages n).1).length

/-- Total item count of the pages before page `n`: the value of `len(videos)`
when the `n`-th request is issued. -/
def consumedBefore (pages : Nat → List RawItem × Bool) (n : Nat) : Nat :=
  ((List.range n).map (pageCount pages)).sum

/-! ## Multi-channel search (`search_multiple_channels`) -/

/-- A channel entry of the `CHANNELS` registry (`config.py`):
`{'name': ..., 'channel_id': ..., 'handle': ...}`.  `channel_id` is optional
(`channel_config.get('channel_id')`). -/
structure ChannelConfig where
  name : String
  channel_id : Option String
  handle : String
  deriving DecidableEq

/-- Python truthiness of an optional string (`if not channel_id:` is taken for
a missing key and for an empty string alike). -/
def truthyStr : Option String → Bool
  | none => false
  | some s => !s.isEmpty

/-- The channel-id resolution step of `search_multiple_channels`:
keep a truthy configured `channel_id`, otherwise ask
`get_channel_id_from_handle` (modelled by the oracle `resolve`, `none`
covering both "no result" and `HttpError`). -/
def resolveChannelId (resolve : String → Option String) (cfg : ChannelConfig) :
    Option String :=
  if truthyStr cfg.channel_id then cfg.channel_id else resolve cfg.handle

/-- `video['source_channel'] = channel_config['name']` applied to a channel's
result list. -/
def tagVideos (name : String) (vs : List VideoRecord) : List VideoRecord :=
  vs.map (fun v => { v with source_channel := name })

/-- The accumulation loop of `search_multiple_channels`: per channel, resolve
the id (skipping the channel when resolution stays falsy — the `continue`),
fetch its videos (`searchFn`, the outcome of `search_channel_videos`, which is
`[]` on an `HttpError`), tag them, and extend `all_videos`. -/
def collectChannelVideos (searchFn : String → List VideoRecord)
    (resolve : String → Option String) : List ChannelConfig → List VideoRecord
  | [] => []
  | cfg :: rest =>
    (if truthyStr (resolveChannelId resolve cfg) then
      tagVideos cfg.name (searchFn ((resolveChannelId resolve cfg).getD ""))
    else [])
      ++ collectChannelVideos searchFn resolve rest

/-- Ordering used by `all_videos.sort(key=lambda x: x['published_at'])`. -/
def videoLe (a b : VideoRecord) : Prop := a.published_at ≤ b.published_at

instance : DecidableRel videoLe :=
  fun a b => inferInstanceAs (Decidable (a.published_at ≤ b.published_at))

instance : IsTotal VideoRecord videoLe :=
  ⟨fun a b => le_total a.published_at b.published_at⟩

instance : IsTrans VideoRecord videoLe :=
  ⟨fun _ _ _ h1 h2 => le_trans h1 h2⟩

/-- `search_multiple_channels`: accumulate all channels, then
`all_videos.sort(key=lambda x: x['published_at'])`.  CPython `list.sort` is a
stable sort by the key; `List.insertionSort` is stable for a total preorder,
so it is an extensionally faithful model of that call. -/
def search_multiple_channels (searchFn : String → List VideoRecord)
    (resolve : String → Option String) (configs : List ChannelConfig) :
    List VideoRecord :=
  List.insertionSort videoLe (collectChannelVideos searchFn resolve configs)

/-! ## Playlist resolution (`playlist_manager.py`, `main.py`) -/

/-- One item of the `playlists().list(mine=True)` response:
`item['id']` and `item['snippet']['title']`. -/
structure PlaylistItem where
  id : String
  title : String
  deriving DecidableEq

/-- `PlaylistManager._get_playlist_url`. -/
def playlistUrl (pid : String) : String :=
  "https://www.youtube.com/playlist?list=" ++ pid

/-- `find_existing_playlist`.  `resp` is the listing response (`none` for the
caught `HttpError`, which makes the method return `(None, None)`); otherwise
the first item with an exactly matching title wins. -/
def find_existing_playlist (resp : Option (List PlaylistItem)) (title : String) :
    Option String × Option String :=
  match resp with
  | none => (none, none)
  | some items =>
    match items.find? (fun it => it.title == title) with
    | some it => (some it.id, some (playlistUrl it.id))
    | none => (none, none)

/-- `create_playlist`.  `resp` is the id of the created playlist, `none` for
the caught `HttpError` (the method then returns `(None, None)`). -/
def create_playlist (resp : Option String) : Option String × Option String :=
  match resp with
  | none => (none, none)
  | some pid => (some pid, some (playlistUrl pid))

/-- `get_or_create_playlist`: reuse a found playlist (`if playlist_id:` is a
truthiness test), else create.  The `Bool` is the `existing` flag. -/
def get_or_create_playlist (lookupResp : Option (List PlaylistItem))
    (createResp : Option String) (title : String) :
    Option String × Option String × Bool :=
  let f := find_existing_playlist lookupResp title
  if truthyStr f.1 then (f.1, f.2, true)
  else
    let c := create_playlist createResp
    (c.1, c.2, false)

/-- Process exit status of one run. -/
inductive ExitStatus where
  | zero
  | nonZero
  deriving DecidableEq

/-- The tail of `main` (`main.py`) after `get_or_create_playlist` returns:
`if not playlist_id: logger.error(...); print(...); return` — a plain
`return` from `main`, so the interpreter exits with status 0; only the
generic `except Exception` handler calls `sys.exit(1)`.  The `Bool` records
whether `add_videos_to_playlist` is reached. -/
def main_after_resolve (resolved : Option String × Option String × Bool) :
    Bool × ExitStatus :=
  if truthyStr resolved.1 then (true, ExitStatus.zero)
  else (false, ExitStatus.zero)

/-! ## Membership synchronization (`add_videos_to_playlist`) -/

/-- The `(successful_adds, failed_adds, skipped_duplicates)` counters. -/
structure SyncCounts where
  added : Nat
  failed : Nat
  skipped_duplicate : Nat
  deriving DecidableEq

/-- The per-video loop of `add_videos_to_playlist`, from position `i` of the
input list.  `ok i` is the outcome of the `add_video_to_playlist` call for the
video at position `i` (`false` = caught `HttpError`).  Besides the counters
the model returns the trace of video ids for which an insert was attempted,
in call order. -/
def addVideosFrom (existing : List String) (skipDup : Bool) (ok : Nat → Bool) :
    Nat → List VideoRecord → SyncCounts × List String
  | _, [] => (⟨0, 0, 0⟩, [])
  | i, v :: vs =>
    if skipDup = true ∧ v.video_id ∈ existing then
      let r := addVideosFrom existing skipDup ok (i + 1) vs
      ({ r.1 with skipped_duplicate := r.1.skipped_duplicate + 1 }, r.2)
    else if ok i then
      let r := addVideosFrom existing skipDup ok (i + 1) vs
      ({ r.1 with added := r.1.added + 1 }, v.video_id :: r.2)
    else
      let r := addVideosFrom existing skipDup ok (i + 1) vs
      ({ r.1 with failed := r.1.failed + 1 }, v.video_id :: r.2)

/-- `add_videos_to_playlist`.  `getIds` is what `get_playlist_video_ids`
returned (the full membership listing, or `∅` after a caught `HttpError`);
it is only consulted when `skip_duplicates` is set, mirroring
`existing_video_ids = set()` / `if skip_duplicates: ... = self.get_playlist_video_ids(...)`. -/
def add_videos_to_playlist (getIds : List String) (skipDup : Bool)
    (ok : Nat → Bool) (videos : List VideoRecord) : SyncCounts × List String :=
  addVideosFrom (if skipDup then getIds else []) skipDup ok 0 videos

/-- The `except HttpError` branch of `get_playlist_video_ids`:
`return set()`. -/
def get_playlist_video_ids_onError : List String := []

/-! ## Title / description templates (`generate_playlist_title`,
`generate_playlist_description`)

The source delegates substitution to Python's `str.format`.  The model below
covers the fragment of `str.format` these templates use: literal characters
and simple named fields `{name}`; a field whose name is not among the keyword
arguments raises (`KeyError`), an unmatched brace raises (`ValueError`) —
both are `none` here.  (Brace escapes and format specs are not used by this
program's templates and are outside the model.) -/

/-- Read a field name up to the closing `}`; `none` if the brace is never
closed. -/
def splitKey : List Char → Option (List Char × List Char)
  | [] => none
  | c :: rest =>
    if c = '}' then some ([], rest)
    else (splitKey rest).map (fun p => (c :: p.1, p.2))

/-- `str.format` (named-field fragment).  The `fuel` argument makes the
recursion structural; each step consumes at least one character, so
`fuel = length of the template` (as used by `pyFormat`) always suffices and
the `fuel = 0` branch is unreachable from `pyFormat`. -/
def pyFormatAux (lookup : String → Option (List Char)) :
    Nat → List Char → Option (List Char)
  | _, [] => some []
  | 0, _ :: _ => none
  | fuel + 1, c :: rest =>
    if c = '{' then
      match splitKey rest with
      | none => none
      | some (key, rest2) =>
        match lookup (String.mk key) with
        | none => none
        | some v => (pyFormatAux lookup fuel rest2).map (fun t => v ++ t)
    else if c = '}' then none
    else (pyFormatAux lookup fuel rest).map (fun t => c :: t)

/-- `template.format(...)` with the given keyword lookup. -/
def pyFormat (lookup : String → Option (List Char)) (tpl : List Char) :
    Option (List Char) :=
  pyFormatAux lookup tpl.length tpl

/-- The field names a template mentions, in order (`none` on an unmatched
brace).  Same recursion scheme as `pyFormatAux`. -/
def listPlaceholdersAux : Nat → List Char → Option (List String)
  | _, [] => some []
  | 0, _ :: _ => none
  | fuel + 1, c :: rest =>
    if c = '{' then
      match splitKey rest with
      | none => none
      | some (key, rest2) =>
        (listPlaceholdersAux fuel rest2).map (fun ks => String.mk key :: ks)
    else if c = '}' then none
    else listPlaceholdersAux fuel rest

/-- Field names of a template. -/
def listPlaceholders (tpl : List Char) : Option (List String) :=
  listPlaceholdersAux tpl.length tpl

/-- `', '.join([ch['name'] for ch in channels])`. -/
def joinChannelNames (channels : List ChannelConfig) : String :=
  String.intercalate ", " (channels.map (fun ch => ch.name))

/-- The keyword arguments of the `template.format` call in
`generate_playlist_title`: `category=category, date=date_str,
channels=channel_names`. -/
def titleLookup (category dateStr channelNames : List Char) (k : String) :
    Option (List Char) :=
  if k = "category" then some category
  else if k = "date" then some dateStr
  else if k = "channels" then some channelNames
  else none

/-- `generate_playlist_title`.  `dateStr` stands for
`target_date.strftime('%Y%m%d')` (date rendering is not modelled);
`none` is the `KeyError`/`ValueError` a malformed template raises. -/
def generate_playlist_title (category : List Char)
    (channels : List ChannelConfig) (dateStr : List Char) (tpl : List Char) :
    Option (List Char) :=
  pyFormat (titleLookup category dateStr (joinChannelNames channels).data) tpl

/-- Keyword arguments of the `format` call in
`generate_playlist_description`: the title ones plus `count=video_count`. -/
def descLookup (category dateStr channelNames : List Char) (count : Nat)
    (k : String) : Option (List Char) :=
  if k = "category" then some category
  else if k = "date" then some dateStr
  else if k = "channels" then some channelNames
  else if k = "count" then some (Nat.repr count).data
  else none

/-- `generate_playlist_description`.  `dateStr` stands for
`target_date.strftime('%Y-%m-%d')` and `todayStr` for
`date.today().strftime('%Y-%m-%d')` (an ambient input of the source, made
explicit here); the two fixed trailing lines are appended to every
successful substitution. -/
def generate_playlist_description (category : List Char)
    (channels : List ChannelConfig) (dateStr : List Char) (count : Nat)
    (todayStr : List Char) (tpl : List Char) : Option (List Char) :=
  (pyFormat (descLookup category dateStr (joinChannelNames channels).data count) tpl).map
    (fun d =>
      d ++ ("\n\nTotal videos: ".data ++ (Nat.repr count).data)
        ++ ("\nGenerated automatically on ".data ++ todayStr))

/-! ## Helper lemmas: membership synchronization -/

theorem addVideosFrom_counts (existing : List String) (skipDup : Bool)
    (ok : Nat → Bool) :
    ∀ (videos : List VideoRecord) (i : Nat),
      (addVideosFrom existing skipDup ok i videos).1.added
        + (addVideosFrom existing skipDup ok i videos).1.failed
        + (addVideosFrom existing skipDup ok i videos).1.skipped_duplicate
        = videos.length := by
  intro videos
  induction videos with
  | nil => intro i; simp [addVideosFrom]
  | cons v vs ih =>
    intro i
    by_cases h1 : skipDup = true ∧ v.video_id ∈ existing
    · have := ih (i + 1)
      simp only [addVideosFrom, if_pos h1, List.length_cons]
      omega
    · by_cases h2 : ok i = true
      · have := ih (i + 1)
        simp only [addVideosFrom, if_neg h1, if_pos h2, List.length_cons]
        omega
      · have := ih (i + 1)
        simp only [addVideosFrom, if_neg h1, if_neg h2, List.length_cons]
        omega

theorem addVideosFrom_all_mem (existing : List String) (ok : Nat → Bool) :
    ∀ (videos : List VideoRecord) (i : Nat),
      (∀ v ∈ videos, v.video_id ∈ existing) →
      addVideosFrom existing true ok i videos = (⟨0, 0, videos.length⟩, []) := by
  intro videos
  induction videos with
  | nil => intro i _; simp [addVideosFrom]
  | cons v vs ih =>
    intro i h
    have hv : v.video_id ∈ existing := h v (List.mem_cons_self v vs)
    have hrest := ih (i + 1) (fun w hw => h w (List.mem_cons_of_mem _ hw))
    simp [addVideosFrom, hv, hrest]

theorem addVideosFrom_mem_trace (existing : List String) (ok : Nat → Bool)
    (hok : ∀ j, ok j = true) :
    ∀ (videos : List VideoRecord) (i : Nat) (v : VideoRecord), v ∈ videos →
      v.video_id ∈ existing ∨ v.video_id ∈ (addVideosFrom existing true ok i videos).2 := by
  intro videos
  induction videos with
  | nil => intro i v hv; cases hv
  | cons w vs ih =>
    intro i v hv
    by_cases hw : w.video_id ∈ existing
    · rcases List.mem_cons.mp hv with rfl | hv2
      · exact Or.inl hw
      · rcases ih (i + 1) v hv2 with h | h
        · exact Or.inl h
        · right
          simpa [addVideosFrom, hw] using h
    · rcases List.mem_cons.mp hv with rfl | hv2
      · right
        simp [addVideosFrom, hw, hok i]
      · rcases ih (i + 1) v hv2 with h | h
        · exact Or.inl h
        · right
          simp [addVideosFrom, hw, hok i]
          exact Or.inr h

theorem addVideosFrom_no_existing (ok : Nat → Bool) :
    ∀ (videos : List VideoRecord) (i : Nat),
      (addVideosFrom [] true ok i videos).1.skipped_duplicate = 0
      ∧ (addVideosFrom [] true ok i videos).2 = videos.map (fun v => v.video_id)
      ∧ (addVideosFrom [] true ok i videos).1.added
          + (addVideosFrom [] true ok i videos).1.failed = videos.length := by
  intro videos
  induction videos with
  | nil => intro i; simp [addVideosFrom]
  | cons v vs ih =>
    intro i
    have := ih (i + 1)
    by_cases h2 : ok i = true
    · simp only [addVideosFrom, List.mem_nil_iff, and_false, if_false,
        if_pos h2, List.length_cons, List.map_cons]
      refine ⟨this.1, by simp [this.2.1], by have := this.2.2; omega⟩
    · simp only [addVideosFrom, List.mem_nil_iff, and_false, if_false,
        if_neg h2, List.length_cons, List.map_cons]
      refine ⟨this.1, by simp [this.2.1], by have := this.2.2; omega⟩

/-! ## Claim theorems: membership synchronization -/

/-- C2: for every input video list, membership listing and per-video insert
outcome, the three counters returned by `add_videos_to_playlist` satisfy
`added + failed + skipped_duplicate = len(videos)`. -/
theorem sync_counters_sum (getIds : List String) (skipDup : Bool)
    (ok : Nat → Bool) (videos : List VideoRecord) :
    (add_videos_to_playlist getIds skipDup ok videos).1.added
      + (add_videos_to_playlist getIds skipDup ok videos).1.failed
      + (add_videos_to_playlist getIds skipDup ok videos).1.skipped_duplicate
      = videos.length := by
  unfold add_videos_to_playlist
  exact addVideosFrom_counts _ _ _ videos 0

/-- C1: if a first run of `add_videos_to_playlist` with
`skip_duplicates=True` succeeds on every insert and the playlist is otherwise
unchanged (its listing afterwards is the old membership plus the ids whose
insertion the first run attempted), then a second run over the same videos
returns `added = 0`, `failed = 0`, `skipped_duplicate = len(videos)`. -/
theorem sync_second_run_all_skipped (existing : List String)
    (videos : List VideoRecord) (ok1 ok2 : Nat → Bool)
    (hok : ∀ j, ok1 j = true) :
    (add_videos_to_playlist
        (existing ++ (add_videos_to_playlist existing true ok1 videos).2)
        true ok2 videos).1
      = ⟨0, 0, videos.length⟩ := by
  have hmem : ∀ v ∈ videos,
      v.video_id ∈ existing ++ (add_videos_to_playlist existing true ok1 videos).2 := by
    intro v hv
    unfold add_videos_to_playlist
    rcases addVideosFrom_mem_trace existing ok1 hok videos 0 v hv with h | h
    · exact List.mem_append_left _ h
    · exact List.mem_append_right _ (by simpa using h)
  unfold add_videos_to_playlist
  rw [if_pos rfl]
  rw [addVideosFrom_all_mem _ ok2 videos 0 (by simpa [add_videos_to_playlist] using hmem)]

/-- Witness for C1 at a concrete input. -/
theorem sync_second_run_all_skipped_witness :
    (∀ j : Nat, (fun _ : Nat => true) j = true)
    ∧ (add_videos_to_playlist
        ([] ++ (add_videos_to_playlist []
            true (fun _ => true)
            [{ video_id := "v1"
               title := "t"
               published_at := "2025"
               channel_title := "c"
               description := []
               source_channel := "s" }]).2)
        true (fun _ => false)
        [{ video_id := "v1"
           title := "t"
           published_at := "2025"
           channel_title := "c"
           description := []
           source_channel := "s" }]).1

      = ⟨0, 0, 1⟩ :=
  ⟨fun _ => rfl,
    sync_second_run_all_skipped [] _ (fun _ => true) (fun _ => false) (fun _ => rfl)⟩

/-- C10: when the membership listing fails (`get_playlist_video_ids` catches
the `HttpError` and returns the empty set), `add_videos_to_playlist` with
`skip_duplicates=True` skips nothing, attempts an insert for every input
video in order, and `added + failed = len(videos)`. -/
theorem membership_listing_failure_readds (ok : Nat → Bool)
    (videos : List VideoRecord) :
    (add_videos_to_playlist get_playlist_video_ids_onError true ok videos).1.skipped_duplicate = 0
    ∧ (add_videos_to_playlist get_playlist_video_ids_onError true ok videos).2
        = videos.map (fun v => v.video_id)
    ∧ (add_videos_to_playlist get_playlist_video_ids_onError true ok videos).1.added
        + (add_videos_to_playlist get_playlist_video_ids_onError true ok videos).1.failed
        = videos.length := by
  unfold add_videos_to_playlist get_playlist_video_ids_onError
  simpa using addVideosFrom_no_existing ok videos 0

/-! ## Claim theorem: description truncation -/

/-- C7: a raw description longer than 100 characters is stored as exactly its
first 100 characters followed by the 3-character `...` marker (103 characters
in total); a description of at most 100 characters is stored unchanged. -/
theorem description_truncation (it : RawItem) :
    (100 < it.description.length →
        (mkVideoData it).description.length = 103
        ∧ (mkVideoData it).description
            = it.description.take 100 ++ ('.' :: '.' :: '.' :: []))
    ∧ (it.description.length ≤ 100 → (mkVideoData it).description = it.description) := by
  constructor
  · intro h
    constructor
    · simp [mkVideoData, truncateDescription, if_pos h, List.length_take]
      omega
    · simp [mkVideoData, truncateDescription, if_pos h]
  · intro h
    simp [mkVideoData, truncateDescription, Nat.not_lt.mpr h]

/-- Witness for C7 at a 101-character description. -/
theorem description_truncation_witness :
    100 < (List.replicate 101 'a').length
    ∧ (mkVideoData { videoId := "v"
                     title := "t"
                     publishedAt := "p"
                     channelTitle := "c"
                     description := List.replicate 101 'a' }).description.length = 103 :=
  ⟨by simp, ((description_truncation _).1 (by simp)).1⟩

/-! ## Claim theorems: playlist resolution failure (C3) -/

/-- C3 (counterexample): when both the playlist lookup and the creation fail
with a remote error, `get_or_create_playlist` does yield a null id and `main`
does skip the membership sync — but `main` merely logs, prints the error and
`return`s, so the process exits with status 0, not with the claimed non-zero
status. -/
theorem resolution_failure_counterexample :
    get_or_create_playlist none none "news_20251012" = (none, none, false)
    ∧ main_after_resolve (get_or_create_playlist none none "news_20251012")
        = (false, ExitStatus.zero)
    ∧ ExitStatus.zero ≠ ExitStatus.nonZero :=
  ⟨rfl, rfl, by decide⟩

/-- C3 (amended): whenever the lookup step yields no usable playlist (remote
error while listing, or no exact title match) and creation also fails with a
remote error, `get_or_create_playlist` yields a null id, membership
synchronization is not attempted, and the process exits with status zero
after printing an error.  (A lookup failure alone is not fatal: the code
falls through to creation.) -/
theorem resolution_failure_no_sync (lookupResp : Option (List PlaylistItem))
    (title : String)
    (hfind : truthyStr (find_existing_playlist lookupResp title).1 = false) :
    (get_or_create_playlist lookupResp none title).1 = none
    ∧ main_after_resolve (get_or_create_playlist lookupResp none title)
        = (false, ExitStatus.zero) := by
  have h2 : ¬ (truthyStr (find_existing_playlist lookupResp title).1 = true) := by
    simp [hfind]
  simp only [get_or_create_playlist]
  rw [if_neg h2]
  exact ⟨rfl, rfl⟩

/-- Witness for the amended C3 at a concrete failing lookup. -/
theorem resolution_failure_no_sync_witness :
    truthyStr (find_existing_playlist none "news_20251012").1 = false
    ∧ (get_or_create_playlist none none "news_20251012").1 = none
    ∧ main_after_resolve (get_or_create_playlist none none "news_20251012")
        = (false, ExitStatus.zero) :=
  ⟨rfl, (resolution_failure_no_sync none "news_20251012" rfl).1,
    (resolution_failure_no_sync none "news_20251012" rfl).2⟩

/-! ## Claim theorems: time-window resolution (C4) -/

/-- C4 (counterexample): with `hours_back = 0` (target day is today, current
time 01:00 UTC), the truthiness test `if self.hours_back:` treats the value
as unset, so the window starts at midnight and `end - start` is one hour,
not the `0` hours the claim requires for every non-negative `hours_back`. -/
theorem date_range_zero_hours_counterexample :
    ¬ ((get_date_range 0 usPerHour 0 (some 0)).2
        - (get_date_range 0 usPerHour 0 (some 0)).1 = 0 * usPerHour) := by
  norm_num [get_date_range, dayStart, usPerHour]

/-- C4 (amended): if `hours_back` is set to a positive value then
`start < end` and `end - start` is exactly `hours_back` hours;
`hours_back = 0` is treated exactly like an unset `hours_back` (the window
falls back to starting at midnight of the target day), and in that fallback
case `start < end` holds whenever the current instant lies strictly after
midnight of the current day. -/
theorem date_range_spec (today now target : Int) (hb : Option Int)
    (hnow : target = today → dayStart target < now) :
    (∀ h : Int, hb = some h → 0 < h →
        (get_date_range today now target hb).1
            < (get_date_range today now target hb).2
        ∧ (get_date_range today now target hb).2
            - (get_date_range today now target hb).1 = h * usPerHour)
    ∧ ((hb = none ∨ hb = some 0) →
        get_date_range today now target hb = get_date_range today now target none
        ∧ (get_date_range today now target hb).1
            < (get_date_range today now target hb).2) := by
  constructor
  · rintro h rfl hpos
    have hval : (0 : Int) < usPerHour := by norm_num [usPerHour]
    have hh : (0 : Int) < h * usPerHour := mul_pos hpos hval
    simp only [get_date_range, hpos.ne', ne_eq, not_false_eq_true, if_true]
    constructor
    · exact sub_lt_self _ hh
    · ring
  · intro hcase
    have heq : get_date_range today now target hb
        = get_date_range today now target none := by
      rcases hcase with rfl | rfl
      · rfl
      · simp [get_date_range]
    refine ⟨heq, ?_⟩
    rw [heq]
    by_cases ht : target = today
    · subst ht
      simp [get_date_range]
      exact hnow rfl
    · simp [get_date_range, ht]
      have hd : (0 : Int) < usPerDay - 1 := by norm_num [usPerDay]
      simp [dayStart, dayEnd]
      linarith

/-- Witness for the amended C4 at `hours_back = 1`, today at 01:00 UTC. -/
theorem date_range_spec_witness :
    ((0 : Int) = 0 → dayStart 0 < usPerHour)
    ∧ ((get_date_range 0 usPerHour 0 (some 1)).1
          < (get_date_range 0 usPerHour 0 (some 1)).2
        ∧ (get_date_range 0 usPerHour 0 (some 1)).2
            - (get_date_range 0 usPerHour 0 (some 1)).1 = 1 * usPerHour) :=
  ⟨fun _ => by norm_num [dayStart, usPerHour],
    (date_range_spec 0 usPerHour 0 (some 1)
      (fun _ => by norm_num [dayStart, usPerHour])).1 1 rfl one_pos⟩

/-! ## Helper lemmas: stable sorting by `published_at` -/

theorem filter_key_orderedInsert (a : VideoRecord) (t : String)
    (l : List VideoRecord) :
    (List.orderedInsert videoLe a l).filter (fun v => v.published_at == t)
      = if a.published_at == t
          then a :: l.filter (fun v => v.published_at == t)
          else l.filter (fun v => v.published_at == t) := by
  induction l with
  | nil =>
    have hins : List.orderedInsert videoLe a [] = [a] := rfl
    rw [hins, List.filter_cons]
  | cons b l ih =>
    by_cases hr : videoLe a b
    · rw [List.orderedInsert_of_le videoLe l hr, List.filter_cons]
    · have hlt : b.published_at < a.published_at := not_le.mp hr
      simp only [List.orderedInsert, if_neg hr, List.filter_cons, ih]
      by_cases hpa : (a.published_at == t) = true
      · have hat : a.published_at = t := beq_iff_eq.mp hpa
        have hbt : (b.published_at == t) = false := by
          rw [beq_eq_false_iff_ne]
          rw [hat] at hlt
          exact ne_of_lt hlt
        simp [hpa, hbt]
      · simp [hpa]

theorem filter_key_insertionSort (t : String) (l : List VideoRecord) :
    (List.insertionSort videoLe l).filter (fun v => v.published_at == t)
      = l.filter (fun v => v.published_at == t) := by
  induction l with
  | nil => rfl
  | cons a l ih =>
    simp only [List.insertionSort]
    rw [filter_key_orderedInsert]
    by_cases hpa : (a.published_at == t) = true
    · simp [hpa, ih, List.filter_cons]
    · simp [hpa, ih, List.filter_cons]

theorem collectChannelVideos_append (searchFn : String → List VideoRecord)
    (resolve : String → Option String) (l1 l2 : List ChannelConfig) :
    collectChannelVideos searchFn resolve (l1 ++ l2)
      = collectChannelVideos searchFn resolve l1
          ++ collectChannelVideos searchFn resolve l2 := by
  induction l1 with
  | nil => rfl
  | cons c l ih => simp [collectChannelVideos, ih]

/-! ## Claim theorems: multi-channel search (C5, C8) -/

/-- C5: `search_multiple_channels` returns the stable sort by `published_at`
of the concatenation of all per-channel (tagged) results in channel-iteration
order: the output is sorted non-decreasing by `published_at`, is a
permutation of that concatenation, and records with equal `published_at`
keep their concatenation order — channel-iteration order, then
within-channel platform order. -/
theorem search_merge_stable_sorted (searchFn : String → List VideoRecord)
    (resolve : String → Option String) (configs : List ChannelConfig) :
    List.Sorted videoLe (search_multiple_channels searchFn resolve configs)
    ∧ (search_multiple_channels searchFn resolve configs).Perm
        (collectChannelVideos searchFn resolve configs)
    ∧ ∀ t : String,
        (search_multiple_channels searchFn resolve configs).filter
            (fun v => v.published_at == t)
          = (collectChannelVideos searchFn resolve configs).filter
              (fun v => v.published_at == t) := by
  refine ⟨List.sorted_insertionSort videoLe _,
    List.perm_insertionSort videoLe _, ?_⟩
  intro t
  exact filter_key_insertionSort t _

/-- C8: a failed handle resolution (the channel is skipped via `continue`) or
an API error during one channel's video search (`search_channel_videos`
returns `[]`) never aborts the whole search: that channel contributes zero
records and the final result equals the search over the remaining channels
alone (so the empty list is a possible non-error outcome). -/
theorem channel_failure_isolated (searchFn : String → List VideoRecord)
    (resolve : String → Option String) (pre post : List ChannelConfig)
    (cfg : ChannelConfig)
    (hfail : truthyStr (resolveChannelId resolve cfg) = false
        ∨ searchFn ((resolveChannelId resolve cfg).getD "") = []) :
    search_multiple_channels searchFn resolve (pre ++ cfg :: post)
      = search_multiple_channels searchFn resolve (pre ++ post) := by
  unfold search_multiple_channels
  congr 1
  rw [collectChannelVideos_append, collectChannelVideos_append]
  congr 1
  simp only [collectChannelVideos]
  rcases hfail with h | h
  · simp [h]
  · simp [h, tagVideos]

/-- Witness for C8: a single channel whose handle resolution fails. -/
theorem channel_failure_isolated_witness :
    (truthyStr (resolveChannelId (fun _ => none) ⟨"X", none, "@x"⟩) = false
      ∨ (fun _ : String => ([] : List VideoRecord))
          ((resolveChannelId (fun _ => none) ⟨"X", none, "@x"⟩).getD "") = [])
    ∧ search_multiple_channels (fun _ => []) (fun _ => none)
          ([] ++ ⟨"X", none, "@x"⟩ :: [])
        = search_multiple_channels (fun _ => []) (fun _ => none) ([] ++ []) :=
  ⟨Or.inl rfl,
    channel_failure_isolated (fun _ => []) (fun _ => none) [] [] _ (Or.inl rfl)⟩

/-! ## Helper lemmas: per-channel paging (C6) -/

theorem consumedBefore_succ (pages : Nat → List RawItem × Bool) (n : Nat) :
    consumedBefore pages (n + 1) = consumedBefore pages n + pageCount pages n := by
  simp [consumedBefore, List.range_succ]

theorem searchPages_stop (pages : Nat → List RawItem × Bool) (maxr fuel n : Nat)
    (acc : List VideoRecord) (h : ¬ acc.length < maxr) :
    searchPages pages maxr fuel n acc = (acc, []) := by
  cases fuel <;> simp [searchPages, h]

theorem searchPages_run (pages : Nat → List RawItem × Bool) (maxr fuel n : Nat)
    (acc : List VideoRecord) (h : acc.length < maxr) (hf : 0 < fuel) :
    (searchPages pages maxr fuel n acc).2 ≠ [] := by
  cases fuel with
  | zero => exact absurd hf (lt_irrefl 0)
  | succ f =>
    simp only [searchPages, if_pos h]
    cases hp : (pages n).2 <;> simp [hp]

theorem searchPages_spec (pages : Nat → List RawItem × Bool) (maxr : Nat)
    (H : ∀ n, pageCount pages n ≤ min 50 (maxr - consumedBefore pages n)) :
    ∀ (fuel n : Nat) (acc : List VideoRecord),
      acc.length = consumedBefore pages n → acc.length ≤ maxr →
      (searchPages pages maxr fuel n acc).1.length ≤ maxr
      ∧ (∀ i, i < (searchPages pages maxr fuel n acc).2.length →
          (searchPages pages maxr fuel n acc).2.getD i 0
            = min 50 (maxr - consumedBefore pages (n + i)))
      ∧ (∀ i, i + 1 < (searchPages pages maxr fuel n acc).2.length →
          consumedBefore pages (n + i + 1) < maxr ∧ (pages (n + i)).2 = true)
      ∧ ((searchPages pages maxr fuel n acc).2.length < fuel →
          0 < (searchPages pages maxr fuel n acc).2.length →
          maxr ≤ consumedBefore pages (n + (searchPages pages maxr fuel n acc).2.length)
          ∨ (pages (n + (searchPages pages maxr fuel n acc).2.length - 1)).2 = false) := by
  intro fuel
  induction fuel with
  | zero =>
    intro n acc hlen hle
    refine ⟨by simpa [searchPages] using hle, ?_, ?_, ?_⟩ <;> simp [searchPages]
  | succ f ih =>
    intro n acc hlen hle
    by_cases hlt : acc.length < maxr
    · have hpc : pageCount pages n ≤ maxr - acc.length := by
        have hmin := H n
        rw [← hlen] at hmin
        exact hmin.trans (Nat.min_le_right _ _)
      have hacc2 : (acc ++ ((pages n).1).map mkVideoData).length
          = consumedBefore pages (n + 1) := by
        simp [consumedBefore_succ, hlen, pageCount]
      have hacc2le : (acc ++ ((pages n).1).map mkVideoData).length ≤ maxr := by
        simp only [pageCount] at hpc
        simp only [List.length_append, List.length_map]
        omega
      cases htok : (pages n).2 with
      | false =>
        have heq : searchPages pages maxr (f + 1) n acc
            = (acc ++ ((pages n).1).map mkVideoData,
               [min 50 (maxr - acc.length)]) := by
          simp [searchPages, hlt, htok]
        rw [heq]
        refine ⟨hacc2le, ?_, ?_, ?_⟩
        · intro i hi
          simp only [List.length_cons, List.length_nil] at hi
          have hi0 : i = 0 := by omega
          subst hi0
          simp [hlen]
        · intro i hi
          simp only [List.length_cons, List.length_nil] at hi
          omega
        · intro _ _
          right
          simpa using htok
      | true =>
        obtain ⟨ih1, ih2, ih3, ih4⟩ :=
          ih (n + 1) (acc ++ ((pages n).1).map mkVideoData) hacc2 hacc2le
        have heq : searchPages pages maxr (f + 1) n acc
            = ((searchPages pages maxr f (n + 1)
                  (acc ++ ((pages n).1).map mkVideoData)).1,
               min 50 (maxr - acc.length)
                 :: (searchPages pages maxr f (n + 1)
                      (acc ++ ((pages n).1).map mkVideoData)).2) := by
          simp [searchPages, hlt, htok]
        rw [heq]
        refine ⟨ih1, ?_, ?_, ?_⟩
        · intro i hi
          cases i with
          | zero => simp [hlen]
          | succ j =>
            have hj : j < (searchPages pages maxr f (n + 1)
                (acc ++ ((pages n).1).map mkVideoData)).2.length := by
              simp only [List.length_cons] at hi
              omega
            have hidx : n + (j + 1) = n + 1 + j := by omega
            rw [List.getD_cons_succ, hidx]
            exact ih2 j hj
        · intro i hi
          cases i with
          | zero =>
            refine ⟨?_, by simpa using htok⟩
            have hne : (searchPages pages maxr f (n + 1)
                (acc ++ ((pages n).1).map mkVideoData)).2 ≠ [] := by
              intro hnil
              rw [hnil] at hi
              simp at hi
            by_cases hgt : (acc ++ ((pages n).1).map mkVideoData).length < maxr
            · rw [hacc2] at hgt
              simpa using hgt
            · exact absurd
                (congrArg Prod.snd (searchPages_stop pages maxr f (n + 1) _ hgt))
                hne
          | succ j =>
            have hj : j + 1 < (searchPages pages maxr f (n + 1)
                (acc ++ ((pages n).1).map mkVideoData)).2.length := by
              simp only [List.length_cons] at hi
              omega
            obtain ⟨hc1, hc2⟩ := ih3 j hj
            constructor
            · have hidx : n + (j + 1) + 1 = n + 1 + j + 1 := by omega
              rw [hidx]
              exact hc1
            · have hidx : n + (j + 1) = n + 1 + j := by omega
              rw [hidx]
              exact hc2
        · intro hflen hpos
          simp only [List.length_cons] at hflen hpos ⊢
          set rs := (searchPages pages maxr f (n + 1)
              (acc ++ ((pages n).1).map mkVideoData)).2 with hrs
          by_cases hk : rs.length = 0
          · left
            have hnil : rs = [] := List.length_eq_zero.mp hk
            have hstop : ¬ (acc ++ ((pages n).1).map mkVideoData).length < maxr := by
              intro hrun
              have hf0 : 0 < f := by omega
              exact searchPages_run pages maxr f (n + 1) _ hrun hf0 (hrs ▸ hnil)
            have hge : maxr ≤ consumedBefore pages (n + 1) := by
              rw [← hacc2]
              omega
            have hidx : n + (rs.length + 1) = n + 1 := by omega
            rw [hidx]
            exact hge
          · have hfl2 : rs.length < f := by omega
            have hpos2 : 0 < rs.length := Nat.pos_of_ne_zero hk
            rcases ih4 hfl2 hpos2 with hge | hfalse
            · left
              have hidx : n + (rs.length + 1) = n + 1 + rs.length := by omega
              rw [hidx]
              exact hge
            · right
              have hidx : n + (rs.length + 1) - 1 = n + 1 + rs.length - 1 := by omega
              rw [hidx]
              exact hfalse
    · rw [searchPages_stop pages maxr (f + 1) n acc hlt]
      refine ⟨hle, ?_, ?_, ?_⟩ <;> simp

/-! ## Claim theorem: per-channel paging (C6) -/

/-- C6: assuming the platform returns at most the requested number of items
per page, `search_channel_videos` accumulates at most `max_results` records;
its `i`-th page request asks for exactly
`min(50, max_results - items accumulated so far)`; it keeps paging only while
the bound is unreached and the previous response carried a next-page token,
and — unless cut off by the iteration bound `fuel` — it stops exactly when
the bound is reached or no token was returned. -/
theorem search_paging_spec (pages : Nat → List RawItem × Bool) (maxr fuel : Nat)
    (H : ∀ n, pageCount pages n ≤ min 50 (maxr - consumedBefore pages n)) :
    (search_channel_videos pages maxr fuel).1.length ≤ maxr
    ∧ (∀ i, i < (search_channel_videos pages maxr fuel).2.length →
        (search_channel_videos pages maxr fuel).2.getD i 0
          = min 50 (maxr - consumedBefore pages i))
    ∧ (∀ i, i + 1 < (search_channel_videos pages maxr fuel).2.length →
        consumedBefore pages (i + 1) < maxr ∧ (pages i).2 = true)
    ∧ ((search_channel_videos pages maxr fuel).2.length < fuel →
        0 < (search_channel_videos pages maxr fuel).2.length →
        maxr ≤ consumedBefore pages (search_channel_videos pages maxr fuel).2.length
        ∨ (pages ((search_channel_videos pages maxr fuel).2.length - 1)).2 = false) := by
  have h0 : ([] : List VideoRecord).length = consumedBefore pages 0 := by
    simp [consumedBefore]
  obtain ⟨h1, h2, h3, h4⟩ :=
    searchPages_spec pages maxr H fuel 0 [] h0 (by simp)
  unfold search_channel_videos
  refine ⟨h1, fun i hi => ?_, fun i hi => ?_, fun ha hb => ?_⟩
  · simpa using h2 i hi
  · simpa using h3 i hi
  · simpa using h4 ha hb

/-- Witness for C6: a server that always answers with an empty page and no
token, bound 5, fuel 3. -/
theorem search_paging_spec_witness :
    (∀ n, pageCount (fun _ => ([], false)) n
        ≤ min 50 (5 - consumedBefore (fun _ => ([], false)) n))
    ∧ (search_channel_videos (fun _ => ([], false)) 5 3).1.length ≤ 5 :=
  ⟨fun n => by simp [pageCount],
    (search_paging_spec (fun _ => ([], false)) 5 3
      (fun n => by simp [pageCount])).1⟩

/-! ## Helper lemmas: template substitution (C9) -/

theorem pyFormatAux_isSome_iff (lookup : String → Option (List Char)) :
    ∀ (fuel : Nat) (tpl : List Char) (ks : List String),
      listPlaceholdersAux fuel tpl = some ks →
      ((pyFormatAux lookup fuel tpl).isSome ↔ ∀ k ∈ ks, (lookup k).isSome) := by
  intro fuel
  induction fuel with
  | zero =>
    intro tpl ks hks
    cases tpl with
    | nil =>
      simp only [listPlaceholdersAux, Option.some.injEq] at hks
      subst hks
      simp [pyFormatAux]
    | cons c rest => simp [listPlaceholdersAux] at hks
  | succ f ih =>
    intro tpl ks hks
    cases tpl with
    | nil =>
      simp only [listPlaceholdersAux, Option.some.injEq] at hks
      subst hks
      simp [pyFormatAux]
    | cons c rest =>
      by_cases hc : c = '{'
      · subst hc
        cases hsk : splitKey rest with
        | none => simp [listPlaceholdersAux, hsk] at hks
        | some p =>
          obtain ⟨key, rest2⟩ := p
          cases hlp : listPlaceholdersAux f rest2 with
          | none => simp [listPlaceholdersAux, hsk, hlp] at hks
          | some ks2 =>
          simp only [listPlaceholdersAux, if_pos rfl, if_true, eq_self_iff_true,
            hsk, hlp, Option.map_some', Option.some.injEq] at hks
          subst hks
          have hks2 : listPlaceholdersAux f rest2 = some ks2 := hlp
          simp only [pyFormatAux, if_pos rfl, if_true, eq_self_iff_true, hsk]
          cases hl : lookup (String.mk key) with
          | none => simp [hl]
          | some v =>
            simp only [hl, Option.isSome_map', List.forall_mem_cons,
              Option.isSome_some, true_and]
            exact ih rest2 ks2 hks2
      · by_cases hc2 : c = '}'
        · subst hc2
          simp [listPlaceholdersAux, hc] at hks
        · simp only [listPlaceholdersAux, if_neg hc, if_neg hc2] at hks
          simp only [pyFormatAux, if_neg hc, if_neg hc2, Option.isSome_map']
          exact ih rest ks hks

theorem titleLookup_isSome (c d ch : List Char) (k : String) :
    (titleLookup c d ch k).isSome
      ↔ (k = "category" ∨ k = "date" ∨ k = "channels") := by
  unfold titleLookup
  split_ifs <;> simp_all

theorem descLookup_isSome (c d ch : List Char) (count : Nat) (k : String) :
    (descLookup c d ch count k).isSome
      ↔ (k = "category" ∨ k = "date" ∨ k = "channels" ∨ k = "count") := by
  unfold descLookup
  split_ifs <;> simp_all

/-! ## Claim theorem: template substitution (C9) -/

/-- C9: a template whose placeholder set contains a name outside the
recognized keyword set (`category`, `date`, `channels` for titles, plus
`count` for descriptions) makes the formatter fail (Python `KeyError`,
modelled as `none`) rather than silently dropping or passing the
placeholder; with only recognized placeholders both formatters succeed,
and in this embedding they are (total) pure functions of their explicit
arguments. -/
theorem template_unknown_placeholder (category dateStr : List Char)
    (channels : List ChannelConfig) (count : Nat) (todayStr : List Char)
    (tpl : List Char) (ks : List String)
    (hks : listPlaceholders tpl = some ks) :
    ((∃ k ∈ ks, ¬(k = "category" ∨ k = "date" ∨ k = "channels")) →
        generate_playlist_title category channels dateStr tpl = none)
    ∧ ((∀ k ∈ ks, k = "category" ∨ k = "date" ∨ k = "channels") →
        (generate_playlist_title category channels dateStr tpl).isSome)
    ∧ ((∃ k ∈ ks, ¬(k = "category" ∨ k = "date" ∨ k = "channels" ∨ k = "count")) →
        generate_playlist_description category channels dateStr count todayStr tpl
          = none)
    ∧ ((∀ k ∈ ks, k = "category" ∨ k = "date" ∨ k = "channels" ∨ k = "count") →
        (generate_playlist_description category channels dateStr count todayStr
          tpl).isSome) := by
  have htitle := pyFormatAux_isSome_iff
    (titleLookup category dateStr (joinChannelNames channels).data)
    tpl.length tpl ks hks
  have hdesc := pyFormatAux_isSome_iff
    (descLookup category dateStr (joinChannelNames channels).data count)
    tpl.length tpl ks hks
  refine ⟨?_, ?_, ?_, ?_⟩
  · rintro ⟨k, hk, hnot⟩
    have hno : ¬ (generate_playlist_title category channels dateStr tpl).isSome := by
      rw [generate_playlist_title, pyFormat, htitle]
      intro hall
      exact hnot ((titleLookup_isSome _ _ _ k).mp (hall k hk))
    exact Option.not_isSome_iff_eq_none.mp hno
  · intro hall
    rw [generate_playlist_title, pyFormat, htitle]
    exact fun k hk => (titleLookup_isSome _ _ _ k).mpr (hall k hk)
  · rintro ⟨k, hk, hnot⟩
    have hno : ¬ (pyFormat
        (descLookup category dateStr (joinChannelNames channels).data count)
        tpl).isSome := by
      rw [pyFormat, hdesc]
      intro hall
      exact hnot ((descLookup_isSome _ _ _ _ k).mp (hall k hk))
    have hnone := Option.not_isSome_iff_eq_none.mp hno
    simp [generate_playlist_description, hnone]
  · intro hall
    have hsome : (pyFormat
        (descLookup category dateStr (joinChannelNames channels).data count)
        tpl).isSome := by
      rw [pyFormat, hdesc]
      exact fun k hk => (descLookup_isSome _ _ _ _ k).mpr (hall k hk)
    obtain ⟨v, hv⟩ := Option.isSome_iff_exists.mp hsome
    simp [generate_playlist_description, hv]

/-- Witness for C9: the template `\x7bcategory\x7d_\x7bbogus\x7d` contains the
unrecognized placeholder `bogus`, so the title formatter fails. -/
theorem template_unknown_placeholder_witness :
    listPlaceholders ("{category}_{bogus}".data) = some ["category", "bogus"]
    ∧ generate_playlist_title "news".data [] "20251012".data
        ("{category}_{bogus}".data) = none :=
  ⟨rfl,
    (template_unknown_placeholder "news".data "20251012".data [] 0 []
        ("{category}_{bogus}".data) ["category", "bogus"] rfl).1
      ⟨"bogus", by decide, by decide⟩⟩

end YTP
